import Mathlib

/-!
Verification development for the incremental comment-extraction pipeline
(`extraer_comentarios.py`).

The Python source operates on pandas DataFrames.  A DataFrame is modelled as a
`List Row`, one `Row` per record, with `Option` marking NaN / missing values.
MD5 content hashes are modelled by the structured key that the source feeds
into MD5, so hash equality in the model is key equality; this is the
content-addressing assumption the source itself relies upon (collisions of the
cryptographic hash are out of scope).  `pd.to_datetime(..., errors="coerce")`
is an external pandas routine; it is modelled by a concrete executable parser
`pd_to_datetime_model` covering the ISO `YYYY-MM-DD` fragment and returning
`none` (NaT) on everything else, which is the behaviour relevant to the
claims.  Real clocks and `time.sleep` are modelled by iteration counting (one
poll every 10 simulated seconds).
-/

namespace Extraer

/-- Heterogeneous source-reported timestamp value, as stored in the
`created_time` column: missing (None/NaN), a string, an integer epoch value,
or an already-parsed datetime carrying its epoch seconds.  (Floats truncate to
their integer part in the source and are subsumed by the integer case.) -/
inductive TSVal where
  | na : TSVal
  | str (s : String) : TSVal
  | int (n : Int) : TSVal
  | dt (epochSeconds : Int) : TSVal
deriving DecidableEq, Repr

/-- One row of the primary `Comentarios` partition: a real comment or a
registry/placeholder record.  Campaign-metadata columns are an opaque uniform
key/value set in the source and are omitted; `Option` encodes NaN/None.  The
`platform` and `post_url` columns are always populated by the program
(placeholder builders and result processors set them unconditionally). -/
structure Row where
  platform : String
  post_url : String
  post_url_original : String
  post_number : Option Nat
  author_name : Option String
  author_url : Option String
  comment_text : Option String
  created_time : TSVal
  likes_count : Nat
  replies_count : Nat
  is_reply : Bool
  parent_comment_id : Option String
  created_time_raw : Option String
  extraction_status : Option String
deriving DecidableEq, Repr

/-- Structured stand-in for the MD5-based identity string built by
`create_unique_comment_hash`: the `registry` constructor models
`REGISTRY_{platform}_{status}_{md5(post_url)}` and the `content` constructor
models `md5("platform|post_url|text|time")`.  Keys of the two constructors are
disjoint, exactly as the `REGISTRY_` prefix keeps placeholder keys disjoint
from 32-hex-character MD5 digests in the source. -/
inductive CommentHash where
  | registry (platform status urlKey : String) : CommentHash
  | content (platform urlKey textKey timeKey : String) : CommentHash
deriving DecidableEq, Repr

/-- Python `str.strip()`: drop whitespace from both ends (character-list
implementation so that proofs can evaluate it). -/
def pyStrip (s : String) : String :=
  String.mk (((s.data.dropWhile Char.isWhitespace).reverse.dropWhile Char.isWhitespace).reverse)

/-- Python `str.lower()` on the ASCII fragment (character-list
implementation). -/
def pyLower (s : String) : String :=
  String.mk (s.data.map Char.toLower)

/-- Python `str.isdigit` on the ASCII fragment: non-empty and all digits. -/
def isDigitString (s : String) : Bool :=
  !s.data.isEmpty && s.data.all Char.isDigit

def digitVal (c : Char) : Nat := c.toNat - '0'.toNat

def digitsToNat (cs : List Char) : Nat :=
  cs.foldl (fun a c => a * 10 + digitVal c) 0

/-- Days from 1970-01-01 to the civil date y-m-d (standard civil-from-days
inverse, restricted to four-digit years so all intermediate quantities are
naturals). -/
def days_from_civil (y m d : Nat) : Int :=
  let y' := if m ≤ 2 then y - 1 else y
  let era := y' / 400
  let yoe := y' - era * 400
  let mp := (m + 9) % 12
  let doy := (153 * mp + 2) / 5 + d - 1
  let doe := yoe * 365 + yoe / 4 - yoe / 100 + doy
  (era * 146097 + doe : Int) - 719468

/-- Model of `pd.to_datetime(value, errors="coerce")` on strings: parses the
ISO `YYYY-MM-DD` fragment to epoch seconds and returns `none` (NaT) for
everything unparsable.  (pandas accepts more date shapes; every claim below
only needs that some strings parse and clearly-non-date strings do not.) -/
def pd_to_datetime_model (s : String) : Option Int :=
  match s.data with
  | [y1, y2, y3, y4, '-', m1, m2, '-', d1, d2] =>
    if ([y1, y2, y3, y4] ++ [m1, m2] ++ [d1, d2]).all Char.isDigit then
      let y := digitsToNat [y1, y2, y3, y4]
      let m := digitsToNat [m1, m2]
      let d := digitsToNat [d1, d2]
      if 1 ≤ m ∧ m ≤ 12 ∧ 1 ≤ d ∧ d ≤ 31 then
        some (86400 * days_from_civil y m d)
      else none
    else none
  | _ => none

/-- Embedding of `normalize_timestamp_for_hash` (lines 1127-1152).  Mirrors
the source branch for branch: missing / NaN / empty-string values give the
`'UNKNOWN'` sentinel; int (and float, via truncation) values give
`str(int(v))`; all-digit strings are returned verbatim; datetime values give
their epoch seconds; other strings are handed to `pd.to_datetime(...,
errors="coerce")` and, when that yields NaT, the original string is returned
unchanged (`return str(timestamp_value)`).  The `except` clause (reachable in
Python only through non-finite floats or out-of-range datetimes, which the
model excludes) also returns `'UNKNOWN'`. -/
def normalize_timestamp_for_hash : TSVal → String
  | .na => "UNKNOWN"
  | .int n => toString n
  | .dt e => toString e
  | .str s =>
    if s = "" then "UNKNOWN"
    else if isDigitString s then s
    else
      match pd_to_datetime_model s with
      | some e => toString e
      | none => s

/-- Row-wise `row.get('extraction_status', 'UNKNOWN')` coerced to `str`. -/
def status_string : Option String → String
  | none => "UNKNOWN"
  | some s => s

/-- Embedding of `create_unique_comment_hash` (lines 1155-1176): rows with a
missing or blank comment text get the registry key
`REGISTRY_{platform}_{status}_{md5(url)}`; real comments get the content key
built from lowercased platform, stripped URL, stripped text and the
normalized timestamp. -/
def create_unique_comment_hash (r : Row) : CommentHash :=
  match r.comment_text with
  | none =>
    .registry (pyLower (pyStrip r.platform)) (status_string r.extraction_status) (pyStrip r.post_url)
  | some t =>
    if pyStrip t = "" then
      .registry (pyLower (pyStrip r.platform)) (status_string r.extraction_status) (pyStrip r.post_url)
    else
      .content (pyLower (pyStrip r.platform)) (pyStrip r.post_url) (pyStrip t)
        (normalize_timestamp_for_hash r.created_time)

/-- The `platform_mapping` lookup of `normalize_existing_data`:
`platform_mapping.get(str(x).strip().lower(), str(x))`. -/
def platform_mapping_lookup (s : String) : String :=
  if pyLower (pyStrip s) = "facebook" then "Facebook"
  else if pyLower (pyStrip s) = "instagram" then "Instagram"
  else if pyLower (pyStrip s) = "tiktok" then "TikTok"
  else s

/-- The `comment_text` cleanup of `normalize_existing_data`: empty and
whitespace-only strings become NA. -/
def blankToNA : Option String → Option String
  | none => none
  | some s => if pyStrip s = "" then none else some s

/-- Embedding of `normalize_existing_data` (lines 1179-1215): canonicalize
platform capitalization, blank comment texts become NA, and when the store has
no `extraction_status` information at all (modelled as: no row carries a
status) the column is synthesized as `NO_COMMENTS` for text-less rows and
None otherwise. -/
def normalize_existing_data (df : List Row) : List Row :=
  if df = [] then df
  else
    let s2 := (df.map (fun r => { r with platform := platform_mapping_lookup r.platform })).map
      (fun r => { r with comment_text := blankToNA r.comment_text })
    if s2.all (fun r => r.extraction_status.isNone) then
      s2.map (fun r =>
        { r with extraction_status := if r.comment_text.isNone then some "NO_COMMENTS" else none })
    else s2

/-- Embedding of `create_post_registry_entry` (lines 1071-1096), minus the
opaque campaign metadata. -/
def create_post_registry_entry (url platform : String) (post_number : Nat) : Row :=
  { platform := platform
    post_url := url
    post_url_original := url
    post_number := some post_number
    author_name := none
    author_url := none
    comment_text := none
    created_time := .na
    likes_count := 0
    replies_count := 0
    is_reply := false
    parent_comment_id := none
    created_time_raw := none
    extraction_status := some "NO_COMMENTS" }

/-- Embedding of `create_failed_registry_entry` (lines 1099-1124). -/
def create_failed_registry_entry (url platform : String) (post_number : Nat) : Row :=
  { create_post_registry_entry url platform post_number with
    extraction_status := some "FAILED" }

/-- Filter predicate selecting the truly-new rows of the fresh batch: hash not
already present in the (normalized) existing store. -/
def truly_new_filter (hs : List CommentHash) (r : Row) : Bool :=
  !decide (create_unique_comment_hash r ∈ hs)

/-- `df_truly_new` of `merge_comments`: rows of the batch whose hash is absent
from the existing store's hashes. -/
def truly_new (df_existing df_new : List Row) : List Row :=
  df_new.filter
    (truly_new_filter ((normalize_existing_data df_existing).map create_unique_comment_hash))

/-- `urls_with_new_comments`: post URLs of truly-new rows with non-NA text. -/
def urls_with_new (tn : List Row) : List String :=
  (tn.filter (fun r => !r.comment_text.isNone)).map (·.post_url)

/-- The obsolete-registry removal mask of `merge_comments` (lines 1277-1284):
text is NA, the URL now has new real comments, and the status is
`NO_COMMENTS`. -/
def registry_removal_mask (urls : List String) (r : Row) : Bool :=
  r.comment_text.isNone && decide (r.post_url ∈ urls)
    && decide (r.extraction_status = some "NO_COMMENTS")

/-- Body of `merge_comments` for two non-empty frames. -/
def merge_body (df_existing df_new : List Row) : List Row :=
  (normalize_existing_data df_existing).filter
      (fun r => !registry_removal_mask (urls_with_new (truly_new df_existing df_new)) r)
    ++ truly_new df_existing df_new

/-- Embedding of `merge_comments` (lines 1218-1292): an empty existing store
returns the batch unchanged; an empty batch returns the store unchanged;
otherwise the existing store is normalized, the batch is filtered against the
store's hashes, obsolete `NO_COMMENTS` registry rows are dropped and the two
parts are concatenated.  (The `if urls_with_new_comments:` guard in the source
is omitted because filtering with an empty URL set removes nothing; the
transient `_comment_hash` helper column is likewise kept implicit.) -/
def merge_comments (df_existing df_new : List Row) : List Row :=
  if df_existing = [] then df_new
  else if df_new = [] then df_existing
  else merge_body df_existing df_new

/-! ### Retry controller (`scrape_with_retry`, lines 323-393) -/

/-- Embedding of `validate_comment_data` (lines 123-138): the three required
fields `platform`, `post_url`, `comment_text` must be present and not blank
after stripping. -/
def validate_comment_data (r : Row) : Bool :=
  decide (pyStrip r.platform ≠ "") && decide (pyStrip r.post_url ≠ "")
    && (match r.comment_text with
        | none => false
        | some t => decide (pyStrip t ≠ ""))

/-- Outcome of one invocation of the injected `scrape_function`: either it
raises, or it returns a (possibly empty) item list. -/
inductive AttemptOutcome where
  | raises : AttemptOutcome
  | returns (items : List Row) : AttemptOutcome

/-- Result of `scrape_with_retry` together with its observable effects: the
returned comment list, how many times the scrape function was invoked, the
increments applied to the run statistics, and whether the URL was appended to
`failed_urls`. -/
structure RetryResult where
  comments : List Row
  attempts_used : Nat
  successful_incr : Nat
  failed_incr : Nat
  invalid_incr : Nat
  main_incr : Nat
  reply_incr : Nat
  url_failed : Bool
deriving DecidableEq, Repr

/-- The `for attempt in range(max_retries)` loop of `scrape_with_retry`.
`fuel` is the number of attempts still allowed, `attempt` the number already
used, `inv` the invalid-comment count accumulated so far.  An attempt that
raises, returns nothing, or returns only invalid comments falls through to the
next attempt (after a linear-backoff sleep, irrelevant to the result); the
first attempt with at least one valid comment returns immediately. -/
def retry_loop (outcomes : Nat → AttemptOutcome) : Nat → Nat → Nat → RetryResult
  | 0, attempt, inv =>
    { comments := []
      attempts_used := attempt
      successful_incr := 0
      failed_incr := 1
      invalid_incr := inv
      main_incr := 0
      reply_incr := 0
      url_failed := true }
  | fuel + 1, attempt, inv =>
    match outcomes attempt with
    | .raises => retry_loop outcomes fuel (attempt + 1) inv
    | .returns items =>
      if items = [] then retry_loop outcomes fuel (attempt + 1) inv
      else
        let valid := items.filter validate_comment_data
        let inv' := inv + (items.length - valid.length)
        if valid = [] then retry_loop outcomes fuel (attempt + 1) inv'
        else
          { comments := valid
            attempts_used := attempt + 1
            successful_incr := 1
            failed_incr := 0
            invalid_incr := inv'
            main_incr := (valid.filter (fun c => !c.is_reply)).length
            reply_incr := (valid.filter (fun c => c.is_reply)).length
            url_failed := false }

/-- Embedding of `scrape_with_retry`: run up to `max_retries` attempts of the
injected scrape function (`outcomes k` is what attempt `k` does); exhaustion
appends the URL to `failed_urls` and bumps the `failed` statistic.  The
`total_attempts` statistic is incremented once per call, independent of the
outcome, and is not tracked here. -/
def scrape_with_retry (outcomes : Nat → AttemptOutcome) (max_retries : Nat) : RetryResult :=
  retry_loop outcomes max_retries 0 0

/-- Rows appended to the run batch for one URL plus the `no_comments`
statistic increment. -/
structure UrlRecordResult where
  rows : List Row
  no_comments_incr : Nat
deriving DecidableEq, Repr

/-- Embedding of the per-URL outcome recording of `run_extraction` (lines
1524-1534): a URL in `failed_urls` gets a FAILED registry entry, an empty
result otherwise gets a NO_COMMENTS registry entry and bumps `no_comments`,
and a non-empty result is appended as is. -/
def record_url_outcome (url_failed : Bool) (comments : List Row)
    (registry_entry failed_entry : Row) : UrlRecordResult :=
  if url_failed then { rows := [failed_entry], no_comments_incr := 0 }
  else if comments = [] then { rows := [registry_entry], no_comments_incr := 1 }
  else { rows := comments, no_comments_incr := 0 }

/-! ### Paginated extraction controller (`scrape_facebook_comments`,
lines 399-530; the Instagram and TikTok loops are the same shape with
`BATCH_SIZE` 1500 resp. 2000) -/

/-- A raw Facebook item as far as deduplication is concerned: the fields
`text` and `date` that feed the per-item MD5 key `f"{text}|{date}"`. -/
structure FbItem where
  text : String
  date : String
deriving DecidableEq, Repr

/-- The MD5 input key of one item (`unique_key`); MD5 is modelled as the key
itself. -/
def fbKey (it : FbItem) : String := it.text ++ "|" ++ it.date

/-- The in-loop immediate deduplication of one batch against the running
`seen_comment_hashes` set (lines 482-497): returns the grown set and the
unique items in order. -/
def dedup_batch (seen : List String) : List FbItem → List String × List FbItem
  | [] => (seen, [])
  | it :: rest =>
    if fbKey it ∈ seen then dedup_batch seen rest
    else
      ((dedup_batch (fbKey it :: seen) rest).1, it :: (dedup_batch (fbKey it :: seen) rest).2)

/-- One fetch of the external job service for a given batch index and
requested size: `none` models a batch whose run did not reach `SUCCEEDED`
(timeout included), `some items` the raw dataset items of a succeeded run. -/
def FetchFun := Nat → Nat → Option (List FbItem)

/-- The pagination loop of `scrape_facebook_comments` (lines 430-518),
parameterized by the batch ceiling `B`.  `fuel` is the number of loop
iterations left out of `batches_needed`; the second component of the result is
the number of batches actually requested.  Requested batch sizes mirror
`min(int(B*1.3), remaining + int(remaining*0.3))` using exact rational
arithmetic (the float products round to the same integers for the constants in
the source).  A failed or empty batch breaks; reaching the target breaks; a
batch whose genuinely-new yield is below 30 percent of `B` breaks
(diminishing returns); the inter-batch pause does not affect the result. -/
def fb_pagination_loop (fetch : FetchFun) (max_comments B : Nat) :
    Nat → Nat → List FbItem → List String → List FbItem × Nat
  | 0, batchNum, acc, _ => (acc, batchNum)
  | fuel + 1, batchNum, acc, seen =>
    if max_comments ≤ acc.length then (acc, batchNum)
    else
      match fetch batchNum (min (B * 13 / 10)
          ((max_comments - acc.length) + (max_comments - acc.length) * 3 / 10)) with
      | none => (acc, batchNum + 1)
      | some batch_items =>
        if batch_items = [] then (acc, batchNum + 1)
        else
          if max_comments ≤ (acc ++ (dedup_batch seen batch_items).2).length then
            (acc ++ (dedup_batch seen batch_items).2, batchNum + 1)
          else if (dedup_batch seen batch_items).2.length * 10 < B * 3 then
            (acc ++ (dedup_batch seen batch_items).2, batchNum + 1)
          else
            fb_pagination_loop fetch max_comments B fuel (batchNum + 1)
              (acc ++ (dedup_batch seen batch_items).2) (dedup_batch seen batch_items).1

/-- The multi-batch path of `scrape_facebook_comments` (taken when
`max_comments > BATCH_SIZE = 2000`), up to and including the final
whole-list safety-net deduplication: accumulated unique items and the number
of batches requested. -/
def scrape_facebook_pagination (fetch : FetchFun) (max_comments : Nat) : List FbItem × Nat :=
  ((dedup_batch []
      (fb_pagination_loop fetch max_comments 2000 ((max_comments + 2000 - 1) / 2000) 0 [] []).1).2,
    (fb_pagination_loop fetch max_comments 2000 ((max_comments + 2000 - 1) / 2000) 0 [] []).2)

/-! ### Job polling (`_wait_for_run_finish`, lines 229-254) -/

/-- The run statuses the source treats as terminal.  (`ABORTED` is absent.) -/
def terminal_statuses : List String := ["SUCCEEDED", "FAILED", "TIMED-OUT"]

/-- The polling loop of `_wait_for_run_finish` with time abstracted to poll
counts: poll `k` happens at `10 * k` seconds (a 10-second sleep separates
consecutive polls; polling latency is idealized to zero).  The status is
checked first; only then is the elapsed time compared against
`max_wait_time = 600`.  `fuel` only guards Lean's recursion and is chosen
large enough (62) to be unreachable: the time check returns `none` at poll 61
at the latest. -/
def wait_poll (status : Nat → String) : Nat → Nat → Option String
  | _, 0 => none
  | k, fuel + 1 =>
    if status k ∈ terminal_statuses then some (status k)
    else if 600 < 10 * k then none
    else wait_poll status (k + 1) fuel

/-- Embedding of `_wait_for_run_finish`: `status k` is the job status observed
by the `k`-th poll; the result is the terminal status returned, or `none` on
timeout. -/
def wait_for_run_finish (status : Nat → String) : Option String :=
  wait_poll status 0 62

/-! ### Stable post-number assignment (`run_extraction`, lines 1468-1484) -/

/-- Order-preserving first-occurrence deduplication, modelling
`pandas.Series.unique`. -/
def unique_preserve : List String → List String → List String
  | [], _ => []
  | u :: rest, seen =>
    if u ∈ seen then unique_preserve rest seen
    else u :: unique_preserve rest (u :: seen)

/-- The non-null post numbers recorded in the store for a URL
(`df_existing[df_existing['post_url'] == url]['post_number'].dropna()`). -/
def existing_numbers (store : List Row) (u : String) : List Nat :=
  (store.filter (fun r => decide (r.post_url = u))).filterMap (·.post_number)

/-- `pandas.Series.mode().iloc[0]`: the most frequent element, smallest on
ties. -/
def mode_val (l : List Nat) : Nat :=
  l.foldl
    (fun best x =>
      if l.count best < l.count x ∨ (l.count x = l.count best ∧ x < best) then x else best)
    (l.headD 0)

/-- The store-derived part of `url_to_post_number`: for each distinct URL of
the store with at least one recorded number, bind the mode of its numbers. -/
def assignment_of_urls (store : List Row) : List String → List (String × Nat)
  | [] => []
  | u :: rest =>
    let nums := existing_numbers store u
    if nums = [] then assignment_of_urls store rest
    else (u, mode_val nums) :: assignment_of_urls store rest

/-- `url_to_post_number` after the loop over `df_existing['post_url'].unique()`. -/
def existing_assignment (store : List Row) : List (String × Nat) :=
  assignment_of_urls store (unique_preserve (store.map (·.post_url)) [])

/-- `next_number = max(url_to_post_number.values()) + 1 if url_to_post_number
else 1`. -/
def next_number_init (assign : List (String × Nat)) : Nat :=
  if assign = [] then 1 else (assign.map (·.2)).foldr max 0 + 1

/-- The fresh-URL numbering loop: each valid URL not yet bound gets the next
number, in input order. -/
def add_fresh_urls : List String → List (String × Nat) → Nat → List (String × Nat)
  | [], acc, _ => acc
  | u :: rest, acc, nxt =>
    if (acc.lookup u).isSome then add_fresh_urls rest acc nxt
    else add_fresh_urls rest (acc ++ [(u, nxt)]) (nxt + 1)

/-- Embedding of the complete `url_to_post_number` construction of
`run_extraction` (lines 1468-1484). -/
def url_to_post_number (store : List Row) (valid_urls : List String) : List (String × Nat) :=
  let base := existing_assignment store
  add_fresh_urls valid_urls base (next_number_init base)

/-! ### Well-formedness of pipeline-produced rows

Every row the pipeline itself writes (comment rows built by the three
`_process_*_results` mappers after `scrape_with_retry` validation, and
registry rows built by the two `create_*_registry_entry` builders) satisfies
`NormalRow`: the platform is one of the canonical capitalized names (a fixed
point of the `platform_mapping` lookup), the URL carries no surrounding
whitespace (URLs are `strip()`-ed on load), and the row is either a real
comment (non-blank text, no extraction status) or a placeholder (NA text with
a `NO_COMMENTS` or `FAILED` status). -/

def NormalRow (r : Row) : Prop :=
  platform_mapping_lookup r.platform = r.platform ∧
  pyStrip r.post_url = r.post_url ∧
  ((r.comment_text = none ∧
      (r.extraction_status = some "NO_COMMENTS" ∨ r.extraction_status = some "FAILED")) ∨
    (r.comment_text ≠ none ∧ (pyStrip (r.comment_text.getD "") ≠ "" ∧ r.extraction_status = none)))

instance (r : Row) : Decidable (NormalRow r) := by
  unfold NormalRow; infer_instance

/-- A batch with no placeholder row sharing its URL with a real comment row.
Batches produced by one pass of `run_extraction` over a duplicate-free URL
list have this shape: each URL contributes either comments or one placeholder,
never both. -/
def NoMixedBatch (N : List Row) : Prop :=
  ∀ p ∈ N, ∀ c ∈ N, p.comment_text = none → c.comment_text ≠ none → p.post_url ≠ c.post_url

instance (N : List Row) : Decidable (NoMixedBatch N) := by
  unfold NoMixedBatch; infer_instance

/-! ### Basic lemmas about the merge ingredients -/

theorem map_id_of_eq {α : Type} (f : α → α) (l : List α) (h : ∀ a ∈ l, f a = a) :
    l.map f = l := by
  induction l with
  | nil => rfl
  | cons a t ih =>
    simp only [List.map_cons]
    rw [h a (List.mem_cons_self a t), ih (fun x hx => h x (List.mem_cons_of_mem a hx))]

theorem normalize_existing_data_id (l : List Row) (h : ∀ r ∈ l, NormalRow r) :
    normalize_existing_data l = l := by
  unfold normalize_existing_data
  by_cases h0 : l = []
  · simp [h0]
  · rw [if_neg h0]
    have hmap1 : l.map (fun r => { r with platform := platform_mapping_lookup r.platform }) = l := by
      apply map_id_of_eq
      intro r hr
      have := (h r hr).1
      cases r
      simp_all
    have hmap2 : l.map (fun r => { r with comment_text := blankToNA r.comment_text }) = l := by
      apply map_id_of_eq
      intro r hr
      rcases (h r hr).2.2 with ⟨hnone, _⟩ | ⟨hsome, htrim, _⟩
      · cases r
        simp_all [blankToNA]
      · rcases ht : r.comment_text with _ | t
        · exact absurd ht hsome
        · rw [ht] at htrim
          cases r
          simp_all [blankToNA]
    rw [hmap1, hmap2]
    by_cases hall : l.all (fun r => r.extraction_status.isNone) = true
    · rw [if_pos hall]
      apply map_id_of_eq
      intro r hr
      have hstat : r.extraction_status = none :=
        Option.isNone_iff_eq_none.mp (List.all_eq_true.mp hall r hr)
      rcases (h r hr).2.2 with ⟨_, hnc | hf⟩ | ⟨hsome, _, _⟩
      · rw [hstat] at hnc; cases hnc
      · rw [hstat] at hf; cases hf
      · have hfls : r.comment_text.isNone = false := by
          rcases ht : r.comment_text with _ | t
          · exact absurd ht hsome
          · rfl
        cases r
        simp_all
    · rw [if_neg hall]

theorem merge_comments_ne (E N : List Row) (hE : E ≠ []) (hN : N ≠ []) :
    merge_comments E N =
      (normalize_existing_data E).filter
          (fun r => !registry_removal_mask (urls_with_new (truly_new E N)) r)
        ++ truly_new E N := by
  unfold merge_comments merge_body
  rw [if_neg hE, if_neg hN]

theorem merge_comments_nil_left (N : List Row) : merge_comments [] N = N := by
  simp [merge_comments]

theorem merge_comments_nil_right (E : List Row) : merge_comments E [] = E := by
  by_cases hE : E = [] <;> simp [merge_comments, hE]

theorem mem_truly_new {E N : List Row} {r : Row} :
    r ∈ truly_new E N ↔
      r ∈ N ∧
        create_unique_comment_hash r ∉
          (normalize_existing_data E).map create_unique_comment_hash := by
  simp [truly_new, truly_new_filter, List.mem_filter]

theorem registry_removal_mask_iff {urls : List String} {r : Row} :
    registry_removal_mask urls r = true ↔
      r.comment_text = none ∧ r.post_url ∈ urls ∧
        r.extraction_status = some "NO_COMMENTS" := by
  simp [registry_removal_mask, Option.isNone_iff_eq_none, and_assoc]

theorem registry_removal_mask_nil (r : Row) : registry_removal_mask [] r = false := by
  simp [registry_removal_mask]

theorem mem_urls_with_new {tn : List Row} {u : String} :
    u ∈ urls_with_new tn ↔ ∃ c, c ∈ tn ∧ c.comment_text ≠ none ∧ c.post_url = u := by
  simp only [urls_with_new, List.mem_map, List.mem_filter, Bool.not_eq_true',
    Option.isNone_eq_false_iff, Option.isSome_iff_ne_none]
  constructor
  · rintro ⟨c, ⟨hc, hne⟩, hu⟩
    exact ⟨c, hc, hne, hu⟩
  · rintro ⟨c, hc, hne, hu⟩
    exact ⟨c, ⟨hc, hne⟩, hu⟩

/-- Absorption: a second merge of a batch whose hashes are all already present
in a normalization-stable store is the identity. -/
theorem merge_absorb (M N : List Row) (hM0 : M ≠ [])
    (hMnorm : normalize_existing_data M = M)
    (hsub : ∀ d ∈ N, create_unique_comment_hash d ∈ M.map create_unique_comment_hash) :
    merge_comments M N = M := by
  by_cases hN0 : N = []
  · rw [hN0, merge_comments_nil_right]
  · rw [merge_comments_ne M N hM0 hN0]
    have htn : truly_new M N = [] := by
      unfold truly_new
      rw [List.filter_eq_nil_iff]
      intro a ha
      simp only [truly_new_filter, hMnorm, Bool.not_eq_true', decide_eq_false_iff_not,
        not_not, Bool.not_eq_false, decide_eq_true_eq]
      exact hsub a ha
    rw [htn]
    have hfilter :
        (normalize_existing_data M).filter
            (fun r => !registry_removal_mask (urls_with_new ([] : List Row)) r) = M := by
      rw [hMnorm]
      apply List.filter_eq_self.mpr
      intro a _
      have : urls_with_new ([] : List Row) = [] := rfl
      rw [this, registry_removal_mask_nil]
      rfl
    rw [hfilter, List.append_nil]

/-- C1 (amended): merge idempotence for pipeline-shaped data.  For every
existing store `E` and batch `N` of well-formed rows, provided `N` does not
contain a placeholder row and a real Comment row for one and the same URL,
merging `N` twice equals merging it once, row for row. -/
theorem c1_merge_idempotent_amended (E N : List Row)
    (hE : ∀ r ∈ E, NormalRow r) (hN : ∀ r ∈ N, NormalRow r) (hmix : NoMixedBatch N) :
    merge_comments (merge_comments E N) N = merge_comments E N := by
  by_cases hE0 : E = []
  · subst hE0
    rw [merge_comments_nil_left]
    by_cases hN0 : N = []
    · rw [hN0]
      exact merge_comments_nil_left []
    · apply merge_absorb N N hN0 (normalize_existing_data_id N hN)
      intro d hd
      exact List.mem_map_of_mem _ hd
  · by_cases hN0 : N = []
    · rw [hN0, merge_comments_nil_right, merge_comments_nil_right]
    · have hnormE := normalize_existing_data_id E hE
      have hMshape : merge_comments E N =
          E.filter (fun r => !registry_removal_mask (urls_with_new (truly_new E N)) r)
            ++ truly_new E N := by
        rw [merge_comments_ne E N hE0 hN0, hnormE]
      have hMsub : ∀ r ∈ merge_comments E N, r ∈ E ∨ r ∈ N := by
        intro r hr
        rw [hMshape] at hr
        rcases List.mem_append.mp hr with h | h
        · exact Or.inl (List.mem_filter.mp h).1
        · exact Or.inr (mem_truly_new.mp h).1
      have hMnormal : ∀ r ∈ merge_comments E N, NormalRow r := by
        intro r hr
        rcases hMsub r hr with h | h
        · exact hE r h
        · exact hN r h
      have hM0 : merge_comments E N ≠ [] := by
        rw [hMshape]
        intro hcon
        obtain ⟨hfil, htn⟩ := List.append_eq_nil.mp hcon
        rw [htn] at hfil
        have hself :
            E.filter (fun r => !registry_removal_mask (urls_with_new ([] : List Row)) r)
              = E := by
          apply List.filter_eq_self.mpr
          intro a _
          have h0 : urls_with_new ([] : List Row) = [] := rfl
          rw [h0, registry_removal_mask_nil]
          rfl
        rw [hself] at hfil
        exact hE0 hfil
      have hsub : ∀ d ∈ N,
          create_unique_comment_hash d ∈
            (merge_comments E N).map create_unique_comment_hash := by
        intro d hd
        by_cases hdh : create_unique_comment_hash d ∈
            (normalize_existing_data E).map create_unique_comment_hash
        · rw [hnormE] at hdh
          obtain ⟨e, heE, heq⟩ := List.mem_map.mp hdh
          by_cases hmask : registry_removal_mask (urls_with_new (truly_new E N)) e = true
          · exfalso
            obtain ⟨hetext, heurl, hestat⟩ := registry_removal_mask_iff.mp hmask
            obtain ⟨c, hcTN, hcne, hcurl⟩ := mem_urls_with_new.mp heurl
            have hcN : c ∈ N := (mem_truly_new.mp hcTN).1
            have heh : create_unique_comment_hash e =
                .registry (pyLower (pyStrip e.platform)) "NO_COMMENTS" (pyStrip e.post_url) := by
              simp [create_unique_comment_hash, hetext, hestat, status_string]
            rcases hdt : d.comment_text with _ | t
            · have hdh2 : create_unique_comment_hash d =
                  .registry (pyLower (pyStrip d.platform)) (status_string d.extraction_status)
                    (pyStrip d.post_url) := by
                simp [create_unique_comment_hash, hdt]
              rw [heh, hdh2] at heq
              injection heq with h1 h2 h3
              have h4 := (hN d hd).2.1
              have h5 := (hE e heE).2.1
              have hde : d.post_url = e.post_url := by
                rw [← h4, ← h3, h5]
              exact hmix d hd c hcN hdt hcne (hde.trans hcurl.symm)
            · have ht : pyStrip t ≠ "" := by
                rcases (hN d hd).2.2 with ⟨hnone, _⟩ | ⟨_, htrim, _⟩
                · rw [hdt] at hnone; cases hnone
                · rw [hdt] at htrim; simpa using htrim
              have hdh2 : create_unique_comment_hash d =
                  .content (pyLower (pyStrip d.platform)) (pyStrip d.post_url) (pyStrip t)
                    (normalize_timestamp_for_hash d.created_time) := by
                simp [create_unique_comment_hash, hdt, ht]
              rw [heh, hdh2] at heq
              exact CommentHash.noConfusion heq
          · apply List.mem_map.mpr
            refine ⟨e, ?_, heq⟩
            rw [hMshape]
            apply List.mem_append_left
            apply List.mem_filter.mpr
            have hb : registry_removal_mask (urls_with_new (truly_new E N)) e = false := by
              cases h : registry_removal_mask (urls_with_new (truly_new E N)) e
              · rfl
              · exact absurd h hmask
            exact ⟨heE, by rw [hb]; rfl⟩
        · apply List.mem_map.mpr
          refine ⟨d, ?_, rfl⟩
          rw [hMshape]
          exact List.mem_append_right _ (mem_truly_new.mpr ⟨hd, hdh⟩)
      exact merge_absorb _ N hM0 (normalize_existing_data_id _ hMnormal) hsub

/-! ### Concrete fixtures -/

/-- A well-formed real comment row as built by the result processors. -/
def mkCommentRow (platform url text : String) (t : TSVal) (n : Nat)
    (author : Option String) : Row :=
  { platform := platform
    post_url := url
    post_url_original := url
    post_number := some n
    author_name := author
    author_url := none
    comment_text := some text
    created_time := t
    likes_count := 0
    replies_count := 0
    is_reply := false
    parent_comment_id := none
    created_time_raw := none
    extraction_status := none }

def c1_url : String := "https://www.facebook.com/alpina/posts/1234567890"

def c1_placeholder : Row := create_post_registry_entry c1_url "Facebook" 1

def c1_comment : Row := mkCommentRow "Facebook" c1_url "great product" (.int 1000) 1 (some "Ana")

def c1_url2 : String := "https://www.instagram.com/p/ABCDEF123456789/"

def c1_comment2 : Row := mkCommentRow "Instagram" c1_url2 "nice" (.int 2000) 2 (some "Bob")

/-- C1 counterexample: the claim `merge (merge E N) N = merge E N` fails for
the store holding one NO_COMMENTS placeholder and the batch holding that same
placeholder plus a real comment for the same URL (such a batch arises when the
input URL list repeats a URL and the first pass yields nothing).  The first
merge retires the placeholder; the second merge finds the batch placeholder's
hash gone and re-inserts it, so merging twice adds a row that merging once
does not. -/
theorem c1_counterexample :
    merge_comments (merge_comments [c1_placeholder] [c1_placeholder, c1_comment])
        [c1_placeholder, c1_comment]
      ≠ merge_comments [c1_placeholder] [c1_placeholder, c1_comment] := by decide

/-- C1 witness: the amended idempotence theorem applied to a concrete store
and a concrete mixed-free batch. -/
theorem c1_merge_idempotent_witness :
    merge_comments (merge_comments [c1_comment] [c1_comment2]) [c1_comment2]
      = merge_comments [c1_comment] [c1_comment2] :=
  c1_merge_idempotent_amended [c1_comment] [c1_comment2] (by decide) (by decide) (by decide)

/-- C2 (amended): placeholder retirement applies to NO_COMMENTS placeholders.
If the batch contains a truly-new real comment for URL `u` and no placeholder
row for `u`, then the merged store contains no NO_COMMENTS placeholder for
`u`.  (FAILED placeholders are not retired; see the counterexample.) -/
theorem c2_placeholder_retirement_amended (E N : List Row) (c : Row) (t : String)
    (hcN : c ∈ N) (hct : c.comment_text = some t)
    (hnew : create_unique_comment_hash c ∉
      (normalize_existing_data E).map create_unique_comment_hash)
    (hnop : ∀ p ∈ N, p.post_url = c.post_url → p.comment_text ≠ none) :
    ∀ r ∈ merge_comments E N,
      ¬(r.comment_text = none ∧ r.extraction_status = some "NO_COMMENTS" ∧
        r.post_url = c.post_url) := by
  rintro r hr ⟨hrt, hrs, hru⟩
  have hN0 : N ≠ [] := List.ne_nil_of_mem hcN
  by_cases hE0 : E = []
  · rw [hE0, merge_comments_nil_left] at hr
    exact (hnop r hr hru) hrt
  · rw [merge_comments_ne E N hE0 hN0] at hr
    rcases List.mem_append.mp hr with h | h
    · obtain ⟨hrE, hmask⟩ := List.mem_filter.mp h
      have hcTN : c ∈ truly_new E N := mem_truly_new.mpr ⟨hcN, hnew⟩
      have hu : r.post_url ∈ urls_with_new (truly_new E N) := by
        apply mem_urls_with_new.mpr
        refine ⟨c, hcTN, ?_, hru.symm⟩
        rw [hct]
        exact Option.some_ne_none t
      have hm : registry_removal_mask (urls_with_new (truly_new E N)) r = true :=
        registry_removal_mask_iff.mpr ⟨hrt, hu, hrs⟩
      rw [hm] at hmask
      exact Bool.noConfusion hmask
    · exact (hnop r (mem_truly_new.mp h).1 hru) hrt

def c2_url : String := "https://www.facebook.com/alpina/posts/555000555"

def c2_failed : Row := create_failed_registry_entry c2_url "Facebook" 2

def c2_comment : Row := mkCommentRow "Facebook" c2_url "love it" (.int 1200) 2 (some "Eva")

def c2_nc : Row := create_post_registry_entry c2_url "Facebook" 2

/-- C2 counterexample: the claim covers FAILED placeholders, but merging a
batch with a real comment for the placeholder's URL leaves a FAILED
placeholder in place: the removal mask of `merge_comments` matches only
`extraction_status == 'NO_COMMENTS'`.  The live FAILED placeholder row is
still a member of the merged store. -/
theorem c2_counterexample :
    c2_failed ∈ merge_comments [c2_failed] [c2_comment] ∧
      c2_failed.extraction_status = some "FAILED" ∧
      c2_failed.comment_text = none ∧
      c2_failed.post_url = c2_url ∧
      c2_comment.comment_text = some "love it" ∧
      c2_comment.post_url = c2_url := by decide

/-- C2 witness: the amended retirement theorem at a concrete store holding a
NO_COMMENTS placeholder that is indeed removed. -/
theorem c2_placeholder_retirement_witness :
    c2_nc ∉ merge_comments [c2_nc] [c2_comment] := by
  intro hmem
  exact c2_placeholder_retirement_amended [c2_nc] [c2_comment] c2_comment "love it"
    (by decide) (by decide) (by decide) (by decide) c2_nc hmem ⟨by decide, by decide, by decide⟩

/-- C10: the merge never deduplicates the new batch against itself.  An empty
existing store returns the batch verbatim (no dedup, no normalization, no
retirement), and a row whose fingerprint is absent from the existing store
keeps its full multiplicity from the batch in the merged result. -/
theorem c10_merge_no_self_dedup (E N : List Row) (r : Row)
    (hnew : create_unique_comment_hash r ∉
      (normalize_existing_data E).map create_unique_comment_hash) :
    merge_comments [] N = N ∧ List.count r N ≤ List.count r (merge_comments E N) := by
  refine ⟨merge_comments_nil_left N, ?_⟩
  by_cases hE0 : E = []
  · rw [hE0, merge_comments_nil_left]
  · by_cases hN0 : N = []
    · rw [hN0]
      simp
    · rw [merge_comments_ne E N hE0 hN0, List.count_append]
      have hcnt : List.count r (truly_new E N) = List.count r N := by
        unfold truly_new
        apply List.count_filter
        simp [truly_new_filter, hnew]
      rw [hcnt]
      exact Nat.le_add_left _ _

def c10_other : Row := mkCommentRow "TikTok" "https://www.tiktok.com/@user/video/724" "hola" (.int 5) 3 none

def c10_dup : Row := mkCommentRow "Facebook" c1_url "same text twice" (.int 77) 1 none

/-- C10 witness: a batch holding the same row twice keeps both copies when
merged into a store that lacks the fingerprint, and an empty store returns the
batch unchanged. -/
theorem c10_merge_no_self_dedup_witness :
    merge_comments [] [c10_dup, c10_dup] = [c10_dup, c10_dup] ∧
      List.count c10_dup [c10_dup, c10_dup]
        ≤ List.count c10_dup (merge_comments [c10_other] [c10_dup, c10_dup]) :=
  c10_merge_no_self_dedup [c10_other] [c10_dup, c10_dup] c10_dup (by decide)

/-- C5: fingerprint stability and author-noninterference.  Two comment rows
agreeing on platform, post URL, trimmed (non-blank) text and normalized
timestamp hash identically, whatever their author name, author URL, raw
snapshot or remaining fields; the hash is a pure function of the row, so it is
deterministic across runs (MD5 of a fixed composite string, no randomized
seeding). -/
theorem c5_fingerprint_stability (r1 r2 : Row) (t1 t2 : String)
    (hp : r1.platform = r2.platform) (hu : r1.post_url = r2.post_url)
    (h1 : r1.comment_text = some t1) (h2 : r2.comment_text = some t2)
    (ht : pyStrip t1 = pyStrip t2) (hne : pyStrip t1 ≠ "")
    (htime : normalize_timestamp_for_hash r1.created_time
      = normalize_timestamp_for_hash r2.created_time) :
    create_unique_comment_hash r1 = create_unique_comment_hash r2 := by
  have hne2 : pyStrip t2 ≠ "" := ht ▸ hne
  simp [create_unique_comment_hash, h1, h2, hne, hne2, hp, hu, ht, htime]

def c5_r1 : Row :=
  { mkCommentRow "Instagram" c1_url2 "me encanta" (.int 1700000000) 4 (some "maria_g") with
    author_url := some "https://instagram.com/maria_g"
    created_time_raw := some "raw snapshot A" }

def c5_r2 : Row :=
  { mkCommentRow "Instagram" c1_url2 "me encanta" (.int 1700000000) 4 (some "maria.g.official") with
    author_url := some "https://instagram.com/maria.g.official"
    created_time_raw := some "completely different raw snapshot"
    likes_count := 9 }

/-- C5 witness: two rows differing in author name, author URL, raw snapshot
and like count hash identically. -/
theorem c5_fingerprint_stability_witness :
    create_unique_comment_hash c5_r1 = create_unique_comment_hash c5_r2 :=
  c5_fingerprint_stability c5_r1 c5_r2 "me encanta" "me encanta"
    rfl rfl rfl rfl rfl (by decide) rfl

/-- C6 counterexample: the claim says every unparsable timestamp maps to the
single sentinel, but `normalize_timestamp_for_hash` returns an unparsable
non-empty string unchanged (`return str(timestamp_value)`), so two distinct
unparsable timestamps normalize to two distinct values, neither of them the
sentinel. -/
theorem c6_counterexample :
    normalize_timestamp_for_hash (.str "hello world") = "hello world" ∧
      "hello world" ≠ "UNKNOWN" ∧
      normalize_timestamp_for_hash (.str "hello world")
        ≠ normalize_timestamp_for_hash (.str "also not a date") := by decide

/-- C6 (amended): timestamp normalization, branch by branch as implemented.
Absent values (None/NaN) and the empty string give the sentinel `'UNKNOWN'`;
integer (and float, via truncation) epoch values give their decimal string;
all-digit strings are returned verbatim; parseable date strings give their
epoch seconds; and unparsable non-empty strings are returned unchanged, not
mapped to the sentinel. -/
theorem c6_timestamp_normalization_amended :
    normalize_timestamp_for_hash .na = "UNKNOWN" ∧
      normalize_timestamp_for_hash (.str "") = "UNKNOWN" ∧
      (∀ n : Int, normalize_timestamp_for_hash (.int n) = toString n) ∧
      (∀ e : Int, normalize_timestamp_for_hash (.dt e) = toString e) ∧
      (∀ s : String, isDigitString s = true → normalize_timestamp_for_hash (.str s) = s) ∧
      (∀ (s : String) (e : Int), s ≠ "" → isDigitString s = false →
        pd_to_datetime_model s = some e →
        normalize_timestamp_for_hash (.str s) = toString e) ∧
      (∀ s : String, s ≠ "" → isDigitString s = false → pd_to_datetime_model s = none →
        normalize_timestamp_for_hash (.str s) = s) := by
  refine ⟨rfl, rfl, fun n => rfl, fun e => rfl, ?_, ?_, ?_⟩
  · intro s hs
    have hs0 : s ≠ "" := by
      intro h
      subst h
      simp [isDigitString] at hs
    simp [normalize_timestamp_for_hash, hs0, hs]
  · intro s e hs0 hdig hparse
    simp [normalize_timestamp_for_hash, hs0, hdig, hparse]
  · intro s hs0 hdig hparse
    simp [normalize_timestamp_for_hash, hs0, hdig, hparse]

/-- C6 witness: the amended branches at concrete inputs, including a real
parse of an ISO date to epoch seconds. -/
theorem c6_timestamp_normalization_witness :
    normalize_timestamp_for_hash (.int 42) = "42" ∧
      normalize_timestamp_for_hash (.str "0123") = "0123" ∧
      normalize_timestamp_for_hash (.str "2024-01-01") = toString (1704067200 : Int) ∧
      normalize_timestamp_for_hash (.str "not numeric") = "not numeric" := by
  refine ⟨c6_timestamp_normalization_amended.2.2.1 42,
    c6_timestamp_normalization_amended.2.2.2.2.1 "0123" (by decide),
    c6_timestamp_normalization_amended.2.2.2.2.2.1 "2024-01-01" 1704067200
      (by decide) (by decide) (by decide),
    c6_timestamp_normalization_amended.2.2.2.2.2.2 "not numeric"
      (by decide) (by decide) (by decide)⟩

/-! ### C3: empty-but-successful extraction -/

/-- Attempt outcomes modelling a job that always succeeds with zero items. -/
def c3_empty_outcomes : Nat → AttemptOutcome := fun _ => .returns []

/-- C3 counterexample: an extraction that completes without raising but yields
zero items IS retried (`if result:` is false for an empty list, so the loop
falls through to the next attempt), and after `max_retries = 3` attempts the
URL lands in `failed_urls` with the `failed` statistic bumped; the
orchestrator therefore records a FAILED placeholder, not NO_COMMENTS, and the
`no_comments` statistic stays untouched.  The claim asserts the opposite on
every count. -/
theorem c3_counterexample :
    (scrape_with_retry c3_empty_outcomes 3).attempts_used = 3 ∧
      (scrape_with_retry c3_empty_outcomes 3).url_failed = true ∧
      (scrape_with_retry c3_empty_outcomes 3).failed_incr = 1 ∧
      (record_url_outcome (scrape_with_retry c3_empty_outcomes 3).url_failed
          (scrape_with_retry c3_empty_outcomes 3).comments
          (create_post_registry_entry c1_url "Facebook" 1)
          (create_failed_registry_entry c1_url "Facebook" 1)).rows
        = [create_failed_registry_entry c1_url "Facebook" 1] ∧
      (record_url_outcome (scrape_with_retry c3_empty_outcomes 3).url_failed
          (scrape_with_retry c3_empty_outcomes 3).comments
          (create_post_registry_entry c1_url "Facebook" 1)
          (create_failed_registry_entry c1_url "Facebook" 1)).no_comments_incr = 0 := by
  decide

theorem retry_loop_all_empty (outcomes : Nat → AttemptOutcome)
    (h : ∀ k, outcomes k = .returns []) :
    ∀ fuel attempt inv, retry_loop outcomes fuel attempt inv =
      { comments := [], attempts_used := attempt + fuel, successful_incr := 0,
        failed_incr := 1, invalid_incr := inv, main_incr := 0, reply_incr := 0,
        url_failed := true } := by
  intro fuel
  induction fuel with
  | zero =>
    intro attempt inv
    simp [retry_loop]
  | succ f ih =>
    intro attempt inv
    have hstep : retry_loop outcomes (f + 1) attempt inv
        = retry_loop outcomes f (attempt + 1) inv := by
      rw [retry_loop, h attempt]
      exact rfl
    rw [hstep, ih (attempt + 1) inv]
    have harith : attempt + 1 + f = attempt + (f + 1) := by omega
    rw [harith]

/-- C3 (amended): an extraction attempt that succeeds with zero items is
treated exactly like a failed attempt: it is retried on every one of the
`max_retries` attempts, the URL is recorded as failed (`failed` statistic
incremented, `no_comments` untouched), and the orchestrator emits a FAILED
placeholder rather than a NO_COMMENTS one. -/
theorem c3_empty_success_amended (max_retries : Nat) (outcomes : Nat → AttemptOutcome)
    (h : ∀ k, outcomes k = .returns []) (url platform : String) (n : Nat) :
    scrape_with_retry outcomes max_retries =
      { comments := [], attempts_used := max_retries, successful_incr := 0, failed_incr := 1,
        invalid_incr := 0, main_incr := 0, reply_incr := 0, url_failed := true } ∧
      record_url_outcome (scrape_with_retry outcomes max_retries).url_failed
          (scrape_with_retry outcomes max_retries).comments
          (create_post_registry_entry url platform n)
          (create_failed_registry_entry url platform n) =
        { rows := [create_failed_registry_entry url platform n], no_comments_incr := 0 } := by
  have h1 : scrape_with_retry outcomes max_retries =
      { comments := [], attempts_used := max_retries, successful_incr := 0, failed_incr := 1,
        invalid_incr := 0, main_incr := 0, reply_incr := 0, url_failed := true } := by
    unfold scrape_with_retry
    rw [retry_loop_all_empty outcomes h max_retries 0 0]
    simp
  refine ⟨h1, ?_⟩
  rw [h1]
  simp [record_url_outcome]

/-- C3 witness: the amended theorem at `max_retries = 3` and a concrete URL. -/
theorem c3_empty_success_witness :
    scrape_with_retry c3_empty_outcomes 3 =
      { comments := [], attempts_used := 3, successful_incr := 0, failed_incr := 1,
        invalid_incr := 0, main_incr := 0, reply_incr := 0, url_failed := true } ∧
      record_url_outcome (scrape_with_retry c3_empty_outcomes 3).url_failed
          (scrape_with_retry c3_empty_outcomes 3).comments
          (create_post_registry_entry c2_url "Facebook" 7)
          (create_failed_registry_entry c2_url "Facebook" 7) =
        { rows := [create_failed_registry_entry c2_url "Facebook" 7], no_comments_incr := 0 } :=
  c3_empty_success_amended 3 c3_empty_outcomes (fun _ => rfl) c2_url "Facebook" 7

/-! ### C7 and C8: pagination -/

theorem dedup_batch_fresh (l : List FbItem) : ∀ seen : List String,
    (l.map fbKey).Nodup → (∀ it ∈ l, fbKey it ∉ seen) →
    dedup_batch seen l = ((l.map fbKey).reverse ++ seen, l) := by
  induction l with
  | nil =>
    intro seen _ _
    simp [dedup_batch]
  | cons it rest ih =>
    intro seen hnd hdisj
    have hnotin : fbKey it ∉ seen := hdisj it (List.mem_cons_self _ _)
    have hnd0 : fbKey it ∉ rest.map fbKey := by
      rw [List.map_cons, List.nodup_cons] at hnd
      exact hnd.1
    have hnd' : (rest.map fbKey).Nodup := by
      rw [List.map_cons, List.nodup_cons] at hnd
      exact hnd.2
    have hdisj' : ∀ x ∈ rest, fbKey x ∉ (fbKey it :: seen) := by
      intro x hx
      simp only [List.mem_cons]
      rintro (heq | hmem)
      · exact hnd0 (heq ▸ List.mem_map_of_mem fbKey hx)
      · exact hdisj x (List.mem_cons_of_mem _ hx) hmem
    unfold dedup_batch
    rw [if_neg hnotin, ih (fbKey it :: seen) hnd' hdisj']
    simp [List.append_assoc]

theorem fb_loop_succ_none (fetch : FetchFun) (maxC B fuel batchNum : Nat)
    (acc : List FbItem) (seen : List String)
    (h1 : ¬maxC ≤ acc.length)
    (hf : fetch batchNum (min (B * 13 / 10)
      ((maxC - acc.length) + (maxC - acc.length) * 3 / 10)) = none) :
    fb_pagination_loop fetch maxC B (fuel + 1) batchNum acc seen = (acc, batchNum + 1) := by
  rw [fb_pagination_loop, if_neg h1, hf]

theorem fb_loop_succ_some (fetch : FetchFun) (maxC B fuel batchNum : Nat)
    (acc : List FbItem) (seen : List String) (items : List FbItem)
    (h1 : ¬maxC ≤ acc.length)
    (hf : fetch batchNum (min (B * 13 / 10)
      ((maxC - acc.length) + (maxC - acc.length) * 3 / 10)) = some items) :
    fb_pagination_loop fetch maxC B (fuel + 1) batchNum acc seen =
      if items = [] then (acc, batchNum + 1)
      else if maxC ≤ (acc ++ (dedup_batch seen items).2).length then
        (acc ++ (dedup_batch seen items).2, batchNum + 1)
      else if (dedup_batch seen items).2.length * 10 < B * 3 then
        (acc ++ (dedup_batch seen items).2, batchNum + 1)
      else
        fb_pagination_loop fetch maxC B fuel (batchNum + 1)
          (acc ++ (dedup_batch seen items).2) (dedup_batch seen items).1 := by
  rw [fb_pagination_loop, if_neg h1, hf]

theorem fb_loop_step_stop (fetch : FetchFun) (maxC B fuel batchNum : Nat)
    (acc : List FbItem) (seen : List String) (items : List FbItem)
    (h1 : acc.length < maxC)
    (hf : fetch batchNum (min (B * 13 / 10)
      ((maxC - acc.length) + (maxC - acc.length) * 3 / 10)) = some items)
    (hne : items ≠ [])
    (h2 : (acc ++ (dedup_batch seen items).2).length < maxC)
    (h3 : (dedup_batch seen items).2.length * 10 < B * 3) :
    fb_pagination_loop fetch maxC B (fuel + 1) batchNum acc seen
      = (acc ++ (dedup_batch seen items).2, batchNum + 1) := by
  rw [fb_loop_succ_some fetch maxC B fuel batchNum acc seen items (Nat.not_le.mpr h1) hf]
  rw [if_neg hne, if_neg (Nat.not_le.mpr h2), if_pos h3]

theorem fb_loop_step_continue (fetch : FetchFun) (maxC B fuel batchNum : Nat)
    (acc : List FbItem) (seen : List String) (items : List FbItem)
    (h1 : acc.length < maxC)
    (hf : fetch batchNum (min (B * 13 / 10)
      ((maxC - acc.length) + (maxC - acc.length) * 3 / 10)) = some items)
    (hne : items ≠ [])
    (h2 : (acc ++ (dedup_batch seen items).2).length < maxC)
    (h3 : ¬((dedup_batch seen items).2.length * 10 < B * 3)) :
    fb_pagination_loop fetch maxC B (fuel + 1) batchNum acc seen
      = fb_pagination_loop fetch maxC B fuel (batchNum + 1)
          (acc ++ (dedup_batch seen items).2) (dedup_batch seen items).1 := by
  rw [fb_loop_succ_some fetch maxC B fuel batchNum acc seen items (Nat.not_le.mpr h1) hf]
  rw [if_neg hne, if_neg (Nat.not_le.mpr h2), if_neg h3]

/-- C7: the diminishing-returns stop rule, and the 5000/2000 scenario.  First
part, for any batch ceiling `B` (2000 for Facebook/TikTok, 1500 for
Instagram): whenever a fetched batch deduplicates to fewer genuinely-new items
than 30 percent of `B` (and the target is still unreached, so no other exit
applies), the loop returns right then, having requested exactly one batch more
than before — no further batch is requested.  Second part: with target 5000
and ceiling 2000, a first batch of 2000 fresh items and a second batch of 400
fresh items end pagination after exactly 2 batches with the 2400 accumulated
items (the planned third batch is never requested). -/
theorem c7_diminishing_returns_stop (fetch : FetchFun) :
    (∀ (maxC B fuel batchNum : Nat) (acc : List FbItem) (seen : List String)
        (items : List FbItem),
      acc.length < maxC →
      fetch batchNum (min (B * 13 / 10)
        ((maxC - acc.length) + (maxC - acc.length) * 3 / 10)) = some items →
      items ≠ [] →
      (acc ++ (dedup_batch seen items).2).length < maxC →
      (dedup_batch seen items).2.length * 10 < B * 3 →
      fb_pagination_loop fetch maxC B (fuel + 1) batchNum acc seen
        = (acc ++ (dedup_batch seen items).2, batchNum + 1)) ∧
    (∀ l0 l1 : List FbItem,
      fetch 0 2600 = some l0 → fetch 1 2600 = some l1 →
      ((l0 ++ l1).map fbKey).Nodup → l0.length = 2000 → l1.length = 400 →
      scrape_facebook_pagination fetch 5000 = (l0 ++ l1, 2)) := by
  constructor
  · intro maxC B fuel batchNum acc seen items h1 hf hne h2 h3
    exact fb_loop_step_stop fetch maxC B fuel batchNum acc seen items h1 hf hne h2 h3
  · intro l0 l1 hf0 hf1 hnodup hl0 hl1
    have hmap : (l0 ++ l1).map fbKey = l0.map fbKey ++ l1.map fbKey := List.map_append _ _ _
    rw [hmap] at hnodup
    have hn0 : (l0.map fbKey).Nodup := hnodup.of_append_left
    have hn1 : (l1.map fbKey).Nodup := hnodup.of_append_right
    have hdisj : List.Disjoint (l0.map fbKey) (l1.map fbKey) :=
      List.disjoint_of_nodup_append hnodup
    have hl0ne : l0 ≠ [] := by
      intro h
      rw [h] at hl0
      simp at hl0
    have hl1ne : l1 ≠ [] := by
      intro h
      rw [h] at hl1
      simp at hl1
    have hded0 : dedup_batch [] l0 = ((l0.map fbKey).reverse, l0) := by
      have := dedup_batch_fresh l0 [] hn0 (by simp)
      simpa using this
    have hded1 : dedup_batch ((l0.map fbKey).reverse) l1
        = ((l1.map fbKey).reverse ++ (l0.map fbKey).reverse, l1) := by
      apply dedup_batch_fresh l1 ((l0.map fbKey).reverse) hn1
      intro x hx hmem
      rw [List.mem_reverse] at hmem
      exact hdisj hmem (List.mem_map_of_mem fbKey hx)
    have hded01 : dedup_batch [] (l0 ++ l1) = (((l0 ++ l1).map fbKey).reverse, l0 ++ l1) := by
      have := dedup_batch_fresh (l0 ++ l1) [] (by rw [hmap]; exact hnodup) (by simp)
      simpa using this
    have hstep1 : fb_pagination_loop fetch 5000 2000 3 0 [] []
        = fb_pagination_loop fetch 5000 2000 2 1 l0 ((l0.map fbKey).reverse) := by
      have h := fb_loop_step_continue fetch 5000 2000 2 0 [] [] l0
        (by norm_num)
        (by norm_num; exact hf0)
        hl0ne
        (by rw [hded0]; simp [hl0])
        (by rw [hded0]; simp [hl0])
      rw [hded0] at h
      simpa using h
    have hstep2 : fb_pagination_loop fetch 5000 2000 2 1 l0 ((l0.map fbKey).reverse)
        = (l0 ++ l1, 2) := by
      have h := fb_loop_step_stop fetch 5000 2000 1 1 l0 ((l0.map fbKey).reverse) l1
        (by rw [hl0]; norm_num)
        (by rw [hl0]; norm_num; exact hf1)
        hl1ne
        (by rw [hded1]; simp [hl0, hl1])
        (by rw [hded1]; simp [hl1])
      rw [hded1] at h
      simpa using h
    have hloop : fb_pagination_loop fetch 5000 2000 ((5000 + 2000 - 1) / 2000) 0 [] []
        = (l0 ++ l1, 2) := by
      have h3 : (5000 + 2000 - 1) / 2000 = 3 := by norm_num
      rw [h3, hstep1, hstep2]
    unfold scrape_facebook_pagination
    rw [hloop, hded01]

def c7_item (j : Nat) : FbItem := { text := String.mk (List.replicate j 'a'), date := "" }

def c7_l0 : List FbItem := (List.range 2000).map c7_item

def c7_l1 : List FbItem := (List.range 400).map (fun j => c7_item (2000 + j))

def c7_fetch : FetchFun := fun i _ => if i = 0 then some c7_l0 else some c7_l1

theorem c7_item_key_length (j : Nat) : (fbKey (c7_item j)).length = j + 1 := by
  show ((String.mk (List.replicate j 'a') ++ "|") ++ "").length = j + 1
  rw [String.length_append, String.length_append]
  show (List.replicate j 'a').length + 1 + 0 = j + 1
  rw [List.length_replicate]

theorem c7_item_key_inj : Function.Injective (fun j => fbKey (c7_item j)) := by
  intro a b h
  have := congrArg String.length h
  simp only [c7_item_key_length] at this
  omega

theorem c7_keys_nodup : ((c7_l0 ++ c7_l1).map fbKey).Nodup := by
  have hr : c7_l0 ++ c7_l1 = (List.range 2400).map c7_item := by
    have h24 : (2400 : Nat) = 2000 + 400 := by norm_num
    rw [h24, List.range_add, List.map_append]
    unfold c7_l0 c7_l1
    rw [List.map_map]
    rfl
  rw [hr, List.map_map]
  exact (List.nodup_range 2400).map c7_item_key_inj

/-- C7 witness: both parts of the stop-rule theorem at concrete inputs.  The
second part is the 5000/2000/2000/400 scenario of the claim itself. -/
theorem c7_diminishing_returns_stop_witness :
    scrape_facebook_pagination c7_fetch 5000 = (c7_l0 ++ c7_l1, 2) ∧
      (c7_l0 ++ c7_l1).length = 2400 :=
  ⟨(c7_diminishing_returns_stop c7_fetch).2 c7_l0 c7_l1 rfl rfl c7_keys_nodup
      (by simp [c7_l0]) (by simp [c7_l1]),
    by simp [c7_l0, c7_l1]⟩

theorem fb_loop_batch_bound (fetch : FetchFun) (maxC B : Nat) :
    ∀ fuel batchNum acc seen,
      (fb_pagination_loop fetch maxC B fuel batchNum acc seen).2 ≤ batchNum + fuel := by
  intro fuel
  induction fuel with
  | zero =>
    intro batchNum acc seen
    simp [fb_pagination_loop]
  | succ f ih =>
    intro batchNum acc seen
    by_cases h1 : maxC ≤ acc.length
    · rw [fb_pagination_loop, if_pos h1]
      show batchNum ≤ batchNum + (f + 1)
      omega
    · rcases hf : fetch batchNum (min (B * 13 / 10)
          ((maxC - acc.length) + (maxC - acc.length) * 3 / 10)) with _ | items
      · rw [fb_loop_succ_none fetch maxC B f batchNum acc seen h1 hf]
        show batchNum + 1 ≤ batchNum + (f + 1)
        omega
      · rw [fb_loop_succ_some fetch maxC B f batchNum acc seen items h1 hf]
        by_cases hni : items = []
        · rw [if_pos hni]
          show batchNum + 1 ≤ batchNum + (f + 1)
          omega
        · rw [if_neg hni]
          by_cases h2 : maxC ≤ (acc ++ (dedup_batch seen items).2).length
          · rw [if_pos h2]
            show batchNum + 1 ≤ batchNum + (f + 1)
            omega
          · rw [if_neg h2]
            by_cases h3 : (dedup_batch seen items).2.length * 10 < B * 3
            · rw [if_pos h3]
              show batchNum + 1 ≤ batchNum + (f + 1)
              omega
            · rw [if_neg h3]
              have := ih (batchNum + 1) (acc ++ (dedup_batch seen items).2)
                (dedup_batch seen items).1
              omega

/-- C8: the pagination loop for one URL requests at most
`ceil(target_count / 2000)` batches, whatever the fetch outcomes (failures,
empties, duplicates): the loop is a `for` over `batches_needed =
ceil(max_comments / BATCH_SIZE)` iterations, each requesting at most one
batch, so it can never loop unboundedly. -/
theorem c8_pagination_batch_bound (fetch : FetchFun) (max_comments : Nat) :
    (scrape_facebook_pagination fetch max_comments).2 ≤ (max_comments + 2000 - 1) / 2000 := by
  have h := fb_loop_batch_bound fetch max_comments 2000 ((max_comments + 2000 - 1) / 2000) 0 [] []
  simpa [scrape_facebook_pagination] using h

/-! ### C9: job polling -/

theorem wait_poll_reaches (status : Nat → String) :
    ∀ fuel k n, k ≤ n → n ≤ 61 → n < k + fuel →
      (∀ j, k ≤ j → j < n → status j ∉ terminal_statuses) →
      status n ∈ terminal_statuses →
      wait_poll status k fuel = some (status n) := by
  intro fuel
  induction fuel with
  | zero =>
    intro k n h1 h2 h3 _ _
    omega
  | succ f ih =>
    intro k n h1 h2 h3 hnon hterm
    by_cases hkn : k = n
    · subst hkn
      rw [wait_poll, if_pos hterm]
    · have hk : k < n := lt_of_le_of_ne h1 hkn
      have hst : status k ∉ terminal_statuses := hnon k le_rfl hk
      have hk61 : ¬600 < 10 * k := by omega
      rw [wait_poll, if_neg hst, if_neg hk61]
      exact ih (k + 1) n hk h2 (by omega) (fun j hj1 hj2 => hnon j (by omega) hj2) hterm

theorem wait_poll_timeout (status : Nat → String) :
    ∀ fuel k, k ≤ 61 → 62 ≤ k + fuel →
      (∀ j, k ≤ j → j ≤ 61 → status j ∉ terminal_statuses) →
      wait_poll status k fuel = none := by
  intro fuel
  induction fuel with
  | zero =>
    intro k h1 h2 _
    omega
  | succ f ih =>
    intro k h1 h2 hnon
    have hst : status k ∉ terminal_statuses := hnon k le_rfl h1
    by_cases hk : k = 61
    · subst hk
      rw [wait_poll, if_neg hst, if_pos (by omega)]
    · have hk61 : ¬600 < 10 * k := by omega
      rw [wait_poll, if_neg hst, if_neg hk61]
      exact ih (k + 1) (by omega) (by omega) (fun j hj1 hj2 => hnon j (by omega) hj2)

/-- C9 counterexample: `ABORTED` is not in the source's terminal-state list
`["SUCCEEDED", "FAILED", "TIMED-OUT"]`, so a job observed as ABORTED is polled
until the 600-second cap and the function returns `none` instead of returning
the run status as the claim requires. -/
theorem c9_counterexample :
    wait_for_run_finish (fun _ => "ABORTED") = none ∧
      wait_for_run_finish (fun _ => "ABORTED") ≠ some "ABORTED" := by decide

/-- C9 (amended): `_wait_for_run_finish` polls on a fixed 10-second interval
(poll `k` at `10 * k` seconds) and returns the polled status as soon as it is
one of `SUCCEEDED`, `FAILED`, `TIMED-OUT` — `ABORTED` is not treated as
terminal; if no such status is observed by poll 61 (the first poll past
`max_wait = 600` seconds), it returns `none` rather than blocking
indefinitely. -/
theorem c9_wait_for_run_finish_amended (status : Nat → String) :
    (∀ n, n ≤ 61 → (∀ j, j < n → status j ∉ terminal_statuses) →
      status n ∈ terminal_statuses → wait_for_run_finish status = some (status n)) ∧
    ((∀ j, j ≤ 61 → status j ∉ terminal_statuses) → wait_for_run_finish status = none) := by
  constructor
  · intro n h1 h2 h3
    exact wait_poll_reaches status 62 0 n (Nat.zero_le n) h1 (by omega)
      (fun j _ hj => h2 j hj) h3
  · intro h
    exact wait_poll_timeout status 62 0 (by omega) (by omega) (fun j _ hj => h j hj)

def c9_status : Nat → String := fun k => if k = 2 then "SUCCEEDED" else "RUNNING"

/-- C9 witness: a run that turns SUCCEEDED on the third poll is reported as
such, and a run that never reaches a recognized terminal state times out. -/
theorem c9_wait_for_run_finish_witness :
    wait_for_run_finish c9_status = some "SUCCEEDED" ∧
      wait_for_run_finish (fun _ => "RUNNING") = none := by
  constructor
  · have h := (c9_wait_for_run_finish_amended c9_status).1 2 (by omega)
      (by decide) (by decide)
    simpa [c9_status] using h
  · exact (c9_wait_for_run_finish_amended (fun _ => "RUNNING")).2 (by decide)

/-! ### C4: post-number stability -/

theorem mem_unique_preserve (l : List String) : ∀ (seen : List String) (u : String),
    u ∈ unique_preserve l seen ↔ u ∈ l ∧ u ∉ seen := by
  induction l with
  | nil =>
    intro seen u
    simp [unique_preserve]
  | cons a t ih =>
    intro seen u
    unfold unique_preserve
    by_cases ha : a ∈ seen
    · rw [if_pos ha, ih]
      constructor
      · rintro ⟨h1, h2⟩
        exact ⟨List.mem_cons_of_mem a h1, h2⟩
      · rintro ⟨h1, h2⟩
        rcases List.mem_cons.mp h1 with rfl | h1'
        · exact absurd ha h2
        · exact ⟨h1', h2⟩
    · rw [if_neg ha]
      constructor
      · intro h
        rcases List.mem_cons.mp h with rfl | h'
        · exact ⟨List.mem_cons_self _ _, ha⟩
        · obtain ⟨h1, h2⟩ := (ih (a :: seen) u).mp h'
          exact ⟨List.mem_cons_of_mem a h1, fun hc => h2 (List.mem_cons_of_mem a hc)⟩
      · rintro ⟨h1, h2⟩
        rcases List.mem_cons.mp h1 with rfl | h1'
        · exact List.mem_cons_self _ _
        · by_cases hua : u = a
          · subst hua
            exact List.mem_cons_self _ _
          · apply List.mem_cons_of_mem
            apply (ih (a :: seen) u).mpr
            refine ⟨h1', ?_⟩
            simp only [List.mem_cons]
            rintro (h | h)
            · exact hua h
            · exact h2 h

theorem mem_existing_numbers {store : List Row} {u : String} {k : Nat} :
    k ∈ existing_numbers store u ↔
      ∃ r, r ∈ store ∧ r.post_url = u ∧ r.post_number = some k := by
  simp only [existing_numbers, List.mem_filterMap, List.mem_filter, decide_eq_true_eq]
  constructor
  · rintro ⟨r, ⟨hr, hu⟩, hn⟩
    exact ⟨r, hr, hu, hn⟩
  · rintro ⟨r, hr, hu, hn⟩
    exact ⟨r, ⟨hr, hu⟩, hn⟩

theorem foldl_mode_const (l : List Nat) (n : Nat) :
    ∀ l' : List Nat, (∀ x ∈ l', x = n) →
      l'.foldl
        (fun best x =>
          if l.count best < l.count x ∨ (l.count x = l.count best ∧ x < best) then x else best)
        n = n := by
  intro l'
  induction l' with
  | nil =>
    intro _
    rfl
  | cons a t ih =>
    intro h
    have ha : a = n := h a (List.mem_cons_self _ _)
    subst ha
    rw [List.foldl_cons, ite_self]
    exact ih (fun x hx => h x (List.mem_cons_of_mem a hx))

theorem mode_val_const (l : List Nat) (n : Nat) (h0 : l ≠ []) (hall : ∀ x ∈ l, x = n) :
    mode_val l = n := by
  unfold mode_val
  have hh : l.headD 0 = n := by
    cases l with
    | nil => exact absurd rfl h0
    | cons a t => exact hall a (List.mem_cons_self _ _)
  rw [hh]
  exact foldl_mode_const l n l hall

theorem assignment_of_urls_lookup (store : List Row) : ∀ (urls : List String) (u : String),
    u ∈ urls → existing_numbers store u ≠ [] →
    (assignment_of_urls store urls).lookup u
      = some (mode_val (existing_numbers store u)) := by
  intro urls
  induction urls with
  | nil =>
    intro u h
    cases h
  | cons v t ih =>
    intro u hu hne
    unfold assignment_of_urls
    by_cases hv : existing_numbers store v = []
    · rw [if_pos hv]
      rcases List.mem_cons.mp hu with rfl | hu'
      · exact absurd hv hne
      · exact ih u hu' hne
    · rw [if_neg hv]
      by_cases huv : u = v
      · subst huv
        simp [List.lookup]
      · have hbeq : (u == v) = false := beq_eq_false_iff_ne.mpr huv
        simp only [List.lookup, hbeq]
        rcases List.mem_cons.mp hu with rfl | hu'
        · exact absurd rfl huv
        · exact ih u hu' hne

theorem assignment_of_urls_lookup_none (store : List Row) (u : String)
    (hu : ∀ r ∈ store, r.post_url ≠ u) :
    ∀ urls : List String, (assignment_of_urls store urls).lookup u = none := by
  intro urls
  induction urls with
  | nil => rfl
  | cons v t ih =>
    unfold assignment_of_urls
    by_cases hv : existing_numbers store v = []
    · rw [if_pos hv]
      exact ih
    · rw [if_neg hv]
      have huv : u ≠ v := by
        intro h
        subst h
        rcases List.exists_mem_of_ne_nil _ hv with ⟨k, hk⟩
        obtain ⟨r, hr, hurl, _⟩ := mem_existing_numbers.mp hk
        exact hu r hr hurl
      have hbeq : (u == v) = false := beq_eq_false_iff_ne.mpr huv
      simp only [List.lookup, hbeq]
      exact ih

theorem lookup_mem {β : Type} (l : List (String × β)) (u : String) (b : β)
    (h : l.lookup u = some b) : (u, b) ∈ l := by
  induction l with
  | nil => cases h
  | cons p t ih =>
    obtain ⟨k, v⟩ := p
    by_cases hk : u = k
    · subst hk
      simp only [List.lookup, beq_self_eq_true] at h
      cases h
      exact List.mem_cons_self _ _
    · have hbeq : (u == k) = false := beq_eq_false_iff_ne.mpr hk
      simp only [List.lookup, hbeq] at h
      exact List.mem_cons_of_mem _ (ih h)

theorem lookup_append_left {β : Type} (l1 l2 : List (String × β)) (u : String)
    (h : (l1.lookup u).isSome) : (l1 ++ l2).lookup u = l1.lookup u := by
  induction l1 with
  | nil => simp at h
  | cons p t ih =>
    obtain ⟨k, v⟩ := p
    by_cases hk : u = k
    · subst hk
      simp [List.lookup]
    · have hbeq : (u == k) = false := beq_eq_false_iff_ne.mpr hk
      simp only [List.cons_append, List.lookup, hbeq] at h ⊢
      exact ih h

theorem lookup_append_right_none {β : Type} (l1 l2 : List (String × β)) (u : String)
    (h : l1.lookup u = none) : (l1 ++ l2).lookup u = l2.lookup u := by
  induction l1 with
  | nil => rfl
  | cons p t ih =>
    obtain ⟨k, v⟩ := p
    by_cases hk : u = k
    · subst hk
      simp [List.lookup] at h
    · have hbeq : (u == k) = false := beq_eq_false_iff_ne.mpr hk
      simp only [List.lookup, hbeq] at h
      simp only [List.cons_append, List.lookup, hbeq]
      exact ih h

theorem add_fresh_preserves (us : List String) :
    ∀ (acc : List (String × Nat)) (nxt : Nat) (u : String),
      (acc.lookup u).isSome → (add_fresh_urls us acc nxt).lookup u = acc.lookup u := by
  induction us with
  | nil =>
    intro acc nxt u _
    rfl
  | cons v t ih =>
    intro acc nxt u h
    unfold add_fresh_urls
    by_cases hv : (acc.lookup v).isSome
    · rw [if_pos hv]
      exact ih acc nxt u h
    · rw [if_neg hv]
      have h2 : ((acc ++ [(v, nxt)]).lookup u).isSome := by
        rw [lookup_append_left acc [(v, nxt)] u h]
        exact h
      rw [ih _ _ _ h2, lookup_append_left acc [(v, nxt)] u h]

theorem add_fresh_new (us : List String) :
    ∀ (acc : List (String × Nat)) (nxt : Nat) (u : String),
      (∀ p ∈ acc, p.2 < nxt) → u ∈ us → acc.lookup u = none →
      ∃ m, (add_fresh_urls us acc nxt).lookup u = some m ∧ nxt ≤ m := by
  induction us with
  | nil =>
    intro acc nxt u _ hu _
    cases hu
  | cons v t ih =>
    intro acc nxt u hb hu hnone
    unfold add_fresh_urls
    by_cases hv : (acc.lookup v).isSome
    · rw [if_pos hv]
      rcases List.mem_cons.mp hu with rfl | hu'
      · rw [hnone] at hv
        simp at hv
      · exact ih acc nxt u hb hu' hnone
    · rw [if_neg hv]
      by_cases huv : u = v
      · subst huv
        have hlook : (acc ++ [(u, nxt)]).lookup u = some nxt := by
          rw [lookup_append_right_none acc [(u, nxt)] u hnone]
          simp [List.lookup]
        have hpres := add_fresh_preserves t (acc ++ [(u, nxt)]) (nxt + 1) u
          (by rw [hlook]; rfl)
        refine ⟨nxt, ?_, le_rfl⟩
        rw [hpres, hlook]
      · rcases List.mem_cons.mp hu with rfl | hu'
        · exact absurd rfl huv
        · have hb' : ∀ p ∈ acc ++ [(v, nxt)], p.2 < nxt + 1 := by
            intro p hp
            rcases List.mem_append.mp hp with h | h
            · exact Nat.lt_succ_of_lt (hb p h)
            · simp at h
              rw [h]
              exact Nat.lt_succ_self nxt
          have hnone' : (acc ++ [(v, nxt)]).lookup u = none := by
            rw [lookup_append_right_none acc [(v, nxt)] u hnone]
            have hbeq : (u == v) = false := beq_eq_false_iff_ne.mpr huv
            simp [List.lookup, hbeq]
          obtain ⟨m, hm1, hm2⟩ := ih (acc ++ [(v, nxt)]) (nxt + 1) u hb' hu' hnone'
          exact ⟨m, hm1, by omega⟩

theorem mem_le_foldr_max (l : List Nat) (x : Nat) (h : x ∈ l) : x ≤ l.foldr max 0 := by
  induction l with
  | nil => cases h
  | cons a t ih =>
    rcases List.mem_cons.mp h with rfl | h'
    · exact Nat.le_max_left _ _
    · exact Nat.le_trans (ih h') (Nat.le_max_right _ _)

/-- Under a consistent store (each URL's rows all carry the same assigned
number), every URL's base assignment equals that number, and it bounds
the fresh counter. -/
theorem existing_assignment_lookup (store : List Row) (u : String) (n : Nat)
    (hcons : ∀ r1 ∈ store, ∀ r2 ∈ store, r1.post_url = r2.post_url →
      ∀ n1 n2, r1.post_number = some n1 → r2.post_number = some n2 → n1 = n2)
    (r : Row) (hr : r ∈ store) (hurl : r.post_url = u) (hn : r.post_number = some n) :
    (existing_assignment store).lookup u = some n := by
  have hu_mem : u ∈ unique_preserve (store.map (·.post_url)) [] := by
    apply (mem_unique_preserve _ _ _).mpr
    refine ⟨?_, List.not_mem_nil u⟩
    exact hurl ▸ List.mem_map_of_mem _ hr
  have hnum_mem : n ∈ existing_numbers store u :=
    mem_existing_numbers.mpr ⟨r, hr, hurl, hn⟩
  have hne : existing_numbers store u ≠ [] := List.ne_nil_of_mem hnum_mem
  have hconst : ∀ x ∈ existing_numbers store u, x = n := by
    intro x hx
    obtain ⟨r', hr', hurl', hx'⟩ := mem_existing_numbers.mp hx
    exact hcons r' hr' r hr (hurl'.trans hurl.symm) x n hx' hn
  unfold existing_assignment
  rw [assignment_of_urls_lookup store _ u hu_mem hne, mode_val_const _ n hne hconst]

/-- C4: post-number stability.  In a consistent store, a URL that already
carries an assigned number keeps exactly that number in `url_to_post_number`,
whatever the input URL list (any position, or absent entirely); a URL not in
the store gets a fresh number strictly greater than every number recorded in
the store. -/
theorem c4_post_number_stability (store : List Row) (valid_urls : List String)
    (hcons : ∀ r1 ∈ store, ∀ r2 ∈ store, r1.post_url = r2.post_url →
      ∀ n1 n2, r1.post_number = some n1 → r2.post_number = some n2 → n1 = n2) :
    (∀ u n r, r ∈ store → r.post_url = u → r.post_number = some n →
      (url_to_post_number store valid_urls).lookup u = some n) ∧
    (∀ u, u ∈ valid_urls → (∀ r ∈ store, r.post_url ≠ u) →
      ∃ m, (url_to_post_number store valid_urls).lookup u = some m ∧
        ∀ r ∈ store, ∀ k, r.post_number = some k → k < m) := by
  constructor
  · intro u n r hr hurl hn
    have hbase := existing_assignment_lookup store u n hcons r hr hurl hn
    show (add_fresh_urls valid_urls (existing_assignment store)
      (next_number_init (existing_assignment store))).lookup u = some n
    rw [add_fresh_preserves valid_urls _ _ u (by rw [hbase]; rfl)]
    exact hbase
  · intro u hu hfresh
    have hbase_none : (existing_assignment store).lookup u = none :=
      assignment_of_urls_lookup_none store u hfresh _
    have hbound : ∀ p ∈ existing_assignment store, p.2 < next_number_init (existing_assignment store) := by
      intro p hp
      unfold next_number_init
      rw [if_neg (List.ne_nil_of_mem hp)]
      have h1 : p.2 ∈ (existing_assignment store).map (·.2) := List.mem_map_of_mem _ hp
      have h2 := mem_le_foldr_max _ _ h1
      omega
    obtain ⟨m, hm1, hm2⟩ := add_fresh_new valid_urls (existing_assignment store)
      (next_number_init (existing_assignment store)) u hbound hu hbase_none
    refine ⟨m, hm1, ?_⟩
    intro r hr k hk
    have hlook : (existing_assignment store).lookup r.post_url = some k :=
      existing_assignment_lookup store r.post_url k hcons r hr rfl hk
    have hmem : (r.post_url, k) ∈ existing_assignment store :=
      lookup_mem _ _ _ hlook
    have hkb := hbound (r.post_url, k) hmem
    omega

def c4_url_old : String := "https://www.instagram.com/p/OLD000000000001/"

def c4_url_new : String := "https://www.instagram.com/p/NEW000000000002/"

def c4_store : List Row := [mkCommentRow "Instagram" c4_url_old "hola" (.int 10) 3 none]

/-- C4 witness: a URL stored with number 3 keeps number 3 even when listed
after a brand-new URL in the next run's input list. -/
theorem c4_post_number_stability_witness :
    (url_to_post_number c4_store [c4_url_new, c4_url_old]).lookup c4_url_old = some 3 :=
  (c4_post_number_stability c4_store [c4_url_new, c4_url_old]
      (by
        intro r1 h1 r2 h2 _ n1 n2 hn1 hn2
        simp only [c4_store, List.mem_singleton] at h1 h2
        subst h1
        subst h2
        simp [mkCommentRow] at hn1 hn2
        omega)).1
    c4_url_old 3 (mkCommentRow "Instagram" c4_url_old "hola" (.int 10) 3 none)
    (by decide) (by decide) (by decide)

end Extraer
